import Mathlib

/-!
Shallow embedding of the terasu-proxy connection-handling pipeline:
the TLS record codec (ReadInitialRecord, Record.write, WriteRecords),
the ClientHello splitter (Record.SplitClientHello), the gap selection
(selectGapDuration) and the per-connection orchestrator (handleConn).

Bytes are modelled as natural numbers (wire bytes are < 256); the client
connection is a finite list of bytes; reading consumes a prefix of the
list; writing to the upstream connection is recorded as a trace of events.
-/

namespace Terasu

/-- A single TLS record: content type byte, 16-bit version, payload bytes.
Mirrors the Go struct Record in internal/tls/records.go. -/
structure Record where
  ContentType : Nat
  Version : Nat
  Payload : List Nat
deriving DecidableEq, Repr

/-- Failure kinds of ReadInitialRecord: a short/failed read (EOF, timeout),
or a declared record length exceeding the configured cap. -/
inductive ReadErr
| readFail
| tooLarge
deriving DecidableEq, Repr

/-- Result of ReadInitialRecord: on success the parsed record, the raw bytes
consumed and the remaining stream; on failure the raw bytes captured so far,
the error kind and the remaining stream. -/
inductive ReadResult
| ok (rec : Record) (raw : List Nat) (rest : List Nat)
| fail (raw : List Nat) (e : ReadErr) (rest : List Nat)
deriving DecidableEq, Repr

/-- The 16-bit big-endian length field of a 5-byte TLS record header. -/
def wireLength (stream : List Nat) : Nat :=
  stream.getD 3 0 * 256 + stream.getD 4 0

/-- Embedding of ReadInitialRecord (internal/tls/records.go): read 5 header
bytes with io.ReadFull, reject lengths above maxSize, then read the payload.
io.ReadFull on the list model takes min(k, available) bytes and fails when
fewer than k bytes are available. -/
def ReadInitialRecord (stream : List Nat) (maxSize : Nat) : ReadResult :=
  let header := stream.take 5
  if stream.length < 5 then
    .fail header .readFail (stream.drop 5)
  else
    let length := wireLength header
    if maxSize < length then
      .fail header .tooLarge (stream.drop 5)
    else
      let rest := stream.drop 5
      let payload := rest.take length
      if rest.length < length then
        .fail (header ++ payload) .readFail (rest.drop length)
      else
        .ok ⟨header.getD 0 0, header.getD 1 0 * 256 + header.getD 2 0, payload⟩
          (header ++ payload) (rest.drop length)

/-- Failure kinds of SplitClientHello, in the order the Go code checks them. -/
inductive SplitErr
| notHandshake
| handshakeTooShort
| notClientHello
| lengthMismatch
deriving DecidableEq, Repr

/-- The 24-bit big-endian handshake body length embedded at payload bytes 1..3. -/
def bodyLengthOf (payload : List Nat) : Nat :=
  payload.getD 1 0 * 65536 + payload.getD 2 0 * 256 + payload.getD 3 0

/-- Embedding of Record.SplitClientHello (internal/tls/records.go): validate
the record as a ClientHello handshake, then split the payload at index
first into two records, or return a single copy when first is out of range. -/
def Record.SplitClientHello (rec : Record) (first : Int) : Except SplitErr (List Record) :=
  if rec.ContentType ≠ 0x16 then
    .error .notHandshake
  else if rec.Payload.length < 4 then
    .error .handshakeTooShort
  else if rec.Payload.getD 0 0 ≠ 0x01 then
    .error .notClientHello
  else if bodyLengthOf rec.Payload + 4 ≠ rec.Payload.length then
    .error .lengthMismatch
  else if first ≤ 0 ∨ (rec.Payload.length : Int) ≤ first then
    .ok [⟨rec.ContentType, rec.Version, rec.Payload⟩]
  else
    .ok [⟨rec.ContentType, rec.Version, rec.Payload.take first.toNat⟩,
         ⟨rec.ContentType, rec.Version, rec.Payload.drop first.toNat⟩]

/-- Embedding of selectGapDuration (internal/tls/records.go). The random
draw rand.Int63n(int64(span)+1) is modelled by an oracle r reduced modulo
span+1, which ranges over exactly the values Int63n returns whenever it
returns at all; the wrapping int64 computation of the Int63n argument
itself, which Go performs and which panics at span = 2^63 - 1, is modelled
separately by wrap64 and gapDrawArg. -/
def selectGapDuration (min max : Int) (r : Nat) : Int :=
  if max ≤ 0 then 0
  else
    let min' := if min < 0 then 0 else min
    let max' := if max < min' then min' else max
    let span := max' - min'
    if span ≤ 0 then max'
    else min' + ((r % (span.toNat + 1) : Nat) : Int)

/-- Reduction of an unbounded integer into the signed 64-bit range,
modelling the wrapping overflow semantics of Go int64 arithmetic. -/
def wrap64 (x : Int) : Int :=
  (x + 9223372036854775808) % 18446744073709551616 - 9223372036854775808

/-- The argument selectGapDuration passes to rand.Int63n when the random
draw is taken, following exactly the same branches; none when no draw.
Go computes this argument as int64(span) + 1 in wrapping 64-bit arithmetic,
so at span = 2^63 - 1 it overflows to -2^63, on which rand.Int63n panics. -/
def gapDrawArg (min max : Int) : Option Int :=
  if max ≤ 0 then none
  else
    let min' := if min < 0 then 0 else min
    let max' := if max < min' then min' else max
    let span := max' - min'
    if span ≤ 0 then none
    else some (wrap64 (span + 1))

/-- The 5-byte TLS record header Record.Write emits: content type, version
high and low bytes, length high and low bytes (Go byte casts reduce mod 256). -/
def recordHeader (ct v len : Nat) : List Nat :=
  [ct, v / 256 % 256, v % 256, len / 256 % 256, len % 256]

/-- Embedding of Record.Write (internal/tls/records.go): reject payloads over
0xFFFF, otherwise emit the 5-byte header followed by the payload. -/
def Record.write (rec : Record) : Except String (List Nat) :=
  if 0xFFFF < rec.Payload.length then
    .error "record payload too large"
  else
    .ok (recordHeader rec.ContentType rec.Version rec.Payload.length ++ rec.Payload)

/-- Observable upstream actions of the writer: bytes written, or a sleep. -/
inductive WriteEvent
| wrote (bytes : List Nat)
| slept (d : Int)
deriving DecidableEq, Repr

/-- Loop body of WriteRecords: write each record, and after the record at
index 0, when more than one record is to be written, sleep for the selected
gap if it is positive. Returns the events emitted and whether every write
succeeded (a failed record emits nothing and stops the loop, keeping the
events of the records already written). -/
def writeRecordsAux (total : Nat) (gapMin gapMax : Int) (r : Nat) :
    List Record → Nat → List WriteEvent × Bool
| [], _ => ([], true)
| rec :: restRecs, idx =>
  match rec.write with
  | .error _ => ([], false)
  | .ok bytes =>
    let gapEvents :=
      if idx = 0 ∧ 1 < total then
        let gap := selectGapDuration gapMin gapMax r
        if 0 < gap then [WriteEvent.slept gap] else []
      else []
    let tail := writeRecordsAux total gapMin gapMax r restRecs (idx + 1)
    (WriteEvent.wrote bytes :: gapEvents ++ tail.1, tail.2)

/-- Embedding of WriteRecords (internal/tls/records.go). -/
def WriteRecords (records : List Record) (gapMin gapMax : Int) (r : Nat) :
    List WriteEvent × Bool :=
  writeRecordsAux records.length gapMin gapMax r records 0

/-- Bytes carried by the write events of a trace, in order. -/
def writtenBytes : List WriteEvent → List Nat
| [] => []
| .wrote bs :: evs => bs ++ writtenBytes evs
| .slept _ :: evs => writtenBytes evs

/-- Number of sleep events in a trace. -/
def sleepCount : List WriteEvent → Nat
| [] => 0
| .wrote _ :: evs => sleepCount evs
| .slept _ :: evs => 1 + sleepCount evs

/-- Whether the orchestrator logs a split failure at warn severity: only
ErrNotHandshake and ErrNotClientHello are logged at debug severity. -/
def splitErrWarns : SplitErr → Bool
| .notHandshake => false
| .notClientHello => false
| .handshakeTooShort => true
| .lengthMismatch => true

/-- Observable outcome of handleConn on one session: the raw bytes consumed
from the client before the relay, the upstream events emitted before the
relay, the split-log severity, whether the relay was entered, and the client
bytes left for the relay to forward. -/
structure SessionTrace where
  consumed : List Nat
  pre : List WriteEvent
  splitWarned : Bool
  relayStarted : Bool
  relayed : List Nat
deriving DecidableEq, Repr

/-- Embedding of the post-dial part of handleConn (the Go server code):
read the initial record; on read failure forward any captured bytes and
pipe; on split failure forward the raw bytes and pipe; on split success
write the resulting records with the gap and pipe, abandoning the session
only when a record write fails. Upstream byte writes are modelled as
succeeding. -/
def handleConn (client : List Nat) (maxSize : Nat)
    (firstFragment gapMin gapMax : Int) (r : Nat) : SessionTrace :=
  match ReadInitialRecord client maxSize with
  | .fail raw _ rest =>
    { consumed := raw
      pre := if 0 < raw.length then [.wrote raw] else []
      splitWarned := false
      relayStarted := true
      relayed := rest }
  | .ok rec raw rest =>
    match rec.SplitClientHello firstFragment with
    | .error e =>
      { consumed := raw
        pre := if 0 < raw.length then [.wrote raw] else []
        splitWarned := splitErrWarns e
        relayStarted := true
        relayed := rest }
    | .ok records =>
      let result := WriteRecords records gapMin gapMax r
      if result.2 then
        { consumed := raw
          pre := result.1
          splitWarned := false
          relayStarted := true
          relayed := rest }
      else
        { consumed := raw
          pre := result.1
          splitWarned := false
          relayStarted := false
          relayed := [] }


/-! Helper lemmas about the gap selection and the writer event trace. -/

theorem mod_succ_le (r k : Nat) : r % (k + 1) ≤ k :=
  Nat.le_of_lt_succ (Nat.mod_lt _ (Nat.succ_pos _))

theorem selectGap_nonneg (mn mx : Int) (r : Nat) : 0 ≤ selectGapDuration mn mx r := by
  simp only [selectGapDuration]
  split_ifs <;> omega

theorem selectGap_of_nonpos (mn mx : Int) (r : Nat) (h : mx ≤ 0) :
    selectGapDuration mn mx r = 0 := by
  simp only [selectGapDuration, if_pos h]

theorem selectGap_mem (mn mx : Int) (r : Nat) (h0 : 0 ≤ mn) (h1 : mn ≤ mx) :
    mn ≤ selectGapDuration mn mx r ∧ selectGapDuration mn mx r ≤ mx := by
  simp only [selectGapDuration]
  split_ifs <;>
    first
      | omega
      | (have ha := mod_succ_le r ((mx - 0).toNat); omega)
      | (have hb := mod_succ_le r ((mx - mn).toNat); omega)

theorem wrap64_eq_self (x : Int) (h0 : -9223372036854775808 ≤ x)
    (h1 : x < 9223372036854775808) : wrap64 x = x := by
  simp only [wrap64]
  have hm : (x + 9223372036854775808) % 18446744073709551616 =
      x + 9223372036854775808 :=
    Int.emod_eq_of_lt (by omega) (by omega)
  omega

theorem wrap64_pos (x : Int) (h1 : 0 < x) (h2 : x < 9223372036854775808) :
    0 < wrap64 x := by
  rw [wrap64_eq_self x (by omega) h2]
  exact h1

theorem writeRecordsAux_cons_error (total : Nat) (g1 g2 : Int) (r : Nat)
    (a : Record) (recs : List Record) (idx : Nat) (e : String)
    (ha : a.write = .error e) :
    writeRecordsAux total g1 g2 r (a :: recs) idx = ([], false) := by
  simp only [writeRecordsAux, ha]

theorem writeRecordsAux_cons_ok (total : Nat) (g1 g2 : Int) (r : Nat)
    (a : Record) (recs : List Record) (idx : Nat) (bs : List Nat)
    (ha : a.write = .ok bs) :
    writeRecordsAux total g1 g2 r (a :: recs) idx =
      (WriteEvent.wrote bs ::
        (if idx = 0 ∧ 1 < total then
          (if 0 < selectGapDuration g1 g2 r then
            [WriteEvent.slept (selectGapDuration g1 g2 r)] else [])
         else []) ++ (writeRecordsAux total g1 g2 r recs (idx + 1)).1,
       (writeRecordsAux total g1 g2 r recs (idx + 1)).2) := by
  simp only [writeRecordsAux, ha]

theorem writeRecordsAux_no_sleep (total : Nat) (g1 g2 : Int) (r : Nat)
    (recs : List Record) (idx : Nat) (hidx : 1 ≤ idx) (d : Int) :
    WriteEvent.slept d ∉ (writeRecordsAux total g1 g2 r recs idx).1 := by
  induction recs generalizing idx with
  | nil => simp [writeRecordsAux]
  | cons a rest ih =>
    cases ha : a.write with
    | error e => rw [writeRecordsAux_cons_error total g1 g2 r a rest idx e ha]; simp
    | ok bs =>
      rw [writeRecordsAux_cons_ok total g1 g2 r a rest idx bs ha]
      have hcond : ¬ (idx = 0 ∧ 1 < total) := by omega
      rw [if_neg hcond]
      simp only [List.nil_append]
      intro hmem
      rcases List.mem_cons.mp hmem with h | h
      · exact WriteEvent.noConfusion h
      · exact ih (idx + 1) (by omega) h

theorem writeRecords_events_shape (records : List Record) (g1 g2 : Int) (r : Nat) :
    (∀ d, WriteEvent.slept d ∉ (WriteRecords records g1 g2 r).1) ∨
    (∃ bs tail, (WriteRecords records g1 g2 r).1 =
        WriteEvent.wrote bs :: WriteEvent.slept (selectGapDuration g1 g2 r) :: tail ∧
      0 < selectGapDuration g1 g2 r ∧ 1 < records.length ∧
      ∀ d, WriteEvent.slept d ∉ tail) := by
  cases records with
  | nil => left; intro d; simp [WriteRecords, writeRecordsAux]
  | cons a rest =>
    cases ha : a.write with
    | error e =>
      left
      intro d
      rw [WriteRecords, writeRecordsAux_cons_error _ g1 g2 r a rest 0 e ha]
      simp
    | ok bs =>
      by_cases hlen : 1 < (a :: rest).length
      · by_cases hgap : 0 < selectGapDuration g1 g2 r
        · right
          refine ⟨bs, (writeRecordsAux (a :: rest).length g1 g2 r rest 1).1, ?_, hgap, hlen, ?_⟩
          · rw [WriteRecords, writeRecordsAux_cons_ok _ g1 g2 r a rest 0 bs ha,
              if_pos (And.intro rfl hlen), if_pos hgap]
            simp
          · intro d
            exact writeRecordsAux_no_sleep _ g1 g2 r rest 1 (by omega) d
        · left
          intro d
          rw [WriteRecords, writeRecordsAux_cons_ok _ g1 g2 r a rest 0 bs ha,
            if_pos (And.intro rfl hlen), if_neg hgap]
          simp only [List.nil_append]
          intro hmem
          rcases List.mem_cons.mp hmem with h | h
          · exact WriteEvent.noConfusion h
          · exact writeRecordsAux_no_sleep _ g1 g2 r rest 1 (by omega) d h
      · left
        intro d
        have hcond : ¬ ((0 : Nat) = 0 ∧ 1 < (a :: rest).length) := fun hc => hlen hc.2
        rw [WriteRecords, writeRecordsAux_cons_ok _ g1 g2 r a rest 0 bs ha, if_neg hcond]
        simp only [List.nil_append]
        intro hmem
        rcases List.mem_cons.mp hmem with h | h
        · exact WriteEvent.noConfusion h
        · exact writeRecordsAux_no_sleep _ g1 g2 r rest 1 (by omega) d h

theorem sleepCount_eq_zero (evs : List WriteEvent) (h : ∀ d, WriteEvent.slept d ∉ evs) :
    sleepCount evs = 0 := by
  induction evs with
  | nil => rfl
  | cons e rest ih =>
    cases e with
    | wrote bs =>
      simp only [sleepCount]
      exact ih (fun d hd => h d (List.mem_cons_of_mem _ hd))
    | slept d => exact absurd (List.mem_cons_self _ _) (h d)


theorem writeRecords_sleep_position (records : List Record) (g1 g2 : Int) (r : Nat)
    (i : Nat) (d : Int)
    (hi : (WriteRecords records g1 g2 r).1[i]? = some (WriteEvent.slept d)) :
    i = 1 ∧ 1 < records.length ∧ d = selectGapDuration g1 g2 r := by
  rcases writeRecords_events_shape records g1 g2 r with hnone | ⟨bs, tail, hev, hgap, hlen, htail⟩
  · exact absurd (List.getElem?_mem hi) (hnone d)
  · rw [hev] at hi
    rcases i with _ | _ | n
    · rw [List.getElem?_cons_zero] at hi
      exact WriteEvent.noConfusion (Option.some.inj hi)
    · rw [List.getElem?_cons_succ, List.getElem?_cons_zero] at hi
      have hd := WriteEvent.slept.inj (Option.some.inj hi)
      exact ⟨rfl, hlen, hd.symm⟩
    · rw [List.getElem?_cons_succ, List.getElem?_cons_succ] at hi
      exact absurd (List.getElem?_mem hi) (htail d)

/-- C7: WriteRecords sleeps at most once per call, only at event position 1
(immediately after the first record) and only when more than one record is
written; the slept duration is the selected gap, which lies in
[gapMin, gapMax] whenever 0 <= gapMin <= gapMax; and gapMax = 0 forces no
sleep regardless of gapMin. -/
theorem writeRecords_single_gap (records : List Record) (gapMin gapMax : Int) (r : Nat) :
    sleepCount (WriteRecords records gapMin gapMax r).1 <= 1 ∧
    (∀ (i : Nat) (d : Int),
      (WriteRecords records gapMin gapMax r).1[i]? = some (WriteEvent.slept d) →
      i = 1 ∧ 1 < records.length ∧ d = selectGapDuration gapMin gapMax r) ∧
    (gapMax = 0 → sleepCount (WriteRecords records gapMin gapMax r).1 = 0) ∧
    (0 ≤ gapMin → gapMin ≤ gapMax →
      ∀ (i : Nat) (d : Int),
        (WriteRecords records gapMin gapMax r).1[i]? = some (WriteEvent.slept d) →
        gapMin ≤ d ∧ d ≤ gapMax) := by
  refine ⟨?_, ?_, ?_, ?_⟩
  · rcases writeRecords_events_shape records gapMin gapMax r with hnone | ⟨bs, tail, hev, hgap, hlen, htail⟩
    · rw [sleepCount_eq_zero _ hnone]
      omega
    · rw [hev]
      simp only [sleepCount]
      rw [sleepCount_eq_zero tail htail]
  · exact fun i d hi => writeRecords_sleep_position records gapMin gapMax r i d hi
  · intro hz
    rcases writeRecords_events_shape records gapMin gapMax r with hnone | ⟨bs, tail, hev, hgap, hlen, htail⟩
    · exact sleepCount_eq_zero _ hnone
    · rw [selectGap_of_nonpos gapMin gapMax r (le_of_eq hz)] at hgap
      omega
  · intro h0 h1 i d hi
    have hd := (writeRecords_sleep_position records gapMin gapMax r i d hi).2.2
    rw [hd]
    exact selectGap_mem gapMin gapMax r h0 h1

/-- Witness for C7 at a concrete two-record call with gap range [5, 15]. -/
theorem writeRecords_single_gap_witness :
    ((0 : Int) ≤ 5 ∧ (5 : Int) ≤ 15) ∧
    ((WriteRecords [⟨0x16, 0x0301, [1, 2]⟩, ⟨0x16, 0x0301, [3]⟩] 5 15 7).1[1]? =
      some (WriteEvent.slept 12)) ∧
    ((5 : Int) ≤ 12 ∧ (12 : Int) ≤ 15) :=
  ⟨⟨by decide, by decide⟩, by decide,
   (writeRecords_single_gap [⟨0x16, 0x0301, [1, 2]⟩, ⟨0x16, 0x0301, [3]⟩] 5 15 7).2.2.2
     (by decide) (by decide) 1 12 (by decide)⟩

/-- Counterexample to C10 as stated: at the degenerate pair min = 0,
max = 2^63 - 1 (math.MaxInt64 as a duration) the random draw is taken, yet
the argument Go hands to rand.Int63n, int64(span) + 1, wraps to -2^63,
which is not positive — rand.Int63n panics on a non-positive argument, so
selectGapDuration is not panic-free on every pair of durations and the
draw span is not always positive when the draw is taken. -/
theorem selectGapDuration_wrap_counterexample :
    gapDrawArg 0 9223372036854775807 = some (-9223372036854775808) ∧
    ¬ (0 < (-9223372036854775808 : Int)) := by
  refine ⟨by decide, by decide⟩

/-- C10 amended: selectGapDuration is safe on every pair of int64 durations
except the single overflowing configuration min ≤ 0 with max = 2^63 - 1,
where the wrapped rand.Int63n argument makes Go panic: elsewhere the result
is never negative, a non-positive max yields exactly 0, a well-formed range
0 <= min <= max bounds the result inside [min, max], and whenever the
random draw is taken the wrapped argument handed to rand.Int63n is
positive. -/
theorem selectGapDuration_safe_no_overflow (min max : Int) (r : Nat)
    (hmin : -9223372036854775808 ≤ min ∧ min ≤ 9223372036854775807)
    (hmax : -9223372036854775808 ≤ max ∧ max ≤ 9223372036854775807)
    (hnw : ¬ (min ≤ 0 ∧ max = 9223372036854775807)) :
    0 ≤ selectGapDuration min max r ∧
    (max ≤ 0 → selectGapDuration min max r = 0) ∧
    (0 ≤ min → min ≤ max →
      min ≤ selectGapDuration min max r ∧ selectGapDuration min max r ≤ max) ∧
    (∀ a, gapDrawArg min max = some a → 0 < a) := by
  refine ⟨selectGap_nonneg min max r, fun h => selectGap_of_nonpos min max r h,
    fun h0 h1 => selectGap_mem min max r h0 h1, ?_⟩
  intro a ha
  simp only [gapDrawArg] at ha
  split_ifs at ha
  all_goals
    have hinj := Option.some.inj ha
    rw [← hinj]
    exact wrap64_pos _ (by omega) (by omega)

/-- Witness for the amended C10 at the well-formed range [5, 15] and the
degenerate pair (5, -1), both inside the int64 range and away from the
overflowing configuration. -/
theorem selectGapDuration_safe_no_overflow_witness :
    ((-9223372036854775808 : Int) ≤ 5 ∧ (5 : Int) ≤ 9223372036854775807) ∧
    ((-9223372036854775808 : Int) ≤ 15 ∧ (15 : Int) ≤ 9223372036854775807) ∧
    ¬ ((5 : Int) ≤ 0 ∧ (15 : Int) = 9223372036854775807) ∧
    ((0 : Int) ≤ 5 ∧ (5 : Int) ≤ 15 ∧
      5 ≤ selectGapDuration 5 15 7 ∧ selectGapDuration 5 15 7 ≤ 15) ∧
    (gapDrawArg 5 15 = some 11 ∧ (0 : Int) < 11) ∧
    ((-1 : Int) ≤ 0 ∧ selectGapDuration 5 (-1) 3 = 0) :=
  ⟨⟨by decide, by decide⟩, ⟨by decide, by decide⟩, by decide,
   ⟨by decide, by decide,
    (selectGapDuration_safe_no_overflow 5 15 7 ⟨by decide, by decide⟩
      ⟨by decide, by decide⟩ (by decide)).2.2.1 (by decide) (by decide)⟩,
   ⟨by decide,
    (selectGapDuration_safe_no_overflow 5 15 7 ⟨by decide, by decide⟩
      ⟨by decide, by decide⟩ (by decide)).2.2.2 11 (by decide)⟩,
   ⟨by decide,
    (selectGapDuration_safe_no_overflow 5 (-1) 3 ⟨by decide, by decide⟩
      ⟨by decide, by decide⟩ (by decide)).2.1 (by decide)⟩⟩


/-- Payload of a valid 204-byte ClientHello handshake record used as the
concrete witness input: message type 1, 24-bit body length 200, 200 body bytes. -/
def chPayload : List Nat := 1 :: 0 :: 0 :: 200 :: List.replicate 200 7

/-- Concrete valid ClientHello record used by the witnesses. -/
def chRec : Record := ⟨0x16, 0x0301, chPayload⟩

/-- C3: on a record passing all validity checks and an interior split point,
SplitClientHello returns exactly the two take/drop fragments, both keeping
the original content type and version, and their payloads concatenate back
to the original payload. -/
theorem splitClientHello_two_fragments (rec : Record) (first : Int)
    (hct : rec.ContentType = 0x16)
    (hlen : 4 ≤ rec.Payload.length)
    (hch : rec.Payload.getD 0 0 = 0x01)
    (hbody : bodyLengthOf rec.Payload + 4 = rec.Payload.length)
    (hpos : 0 < first) (hlt : first < (rec.Payload.length : Int)) :
    rec.SplitClientHello first =
      .ok [⟨rec.ContentType, rec.Version, rec.Payload.take first.toNat⟩,
           ⟨rec.ContentType, rec.Version, rec.Payload.drop first.toNat⟩] ∧
    rec.Payload.take first.toNat ++ rec.Payload.drop first.toNat = rec.Payload ∧
    (rec.Payload.take first.toNat).length = first.toNat ∧
    (rec.Payload.drop first.toNat).length = rec.Payload.length - first.toNat := by
  refine ⟨?_, List.take_append_drop _ _, ?_, ?_⟩
  · simp only [Record.SplitClientHello]
    rw [if_neg (by omega), if_neg (by omega), if_neg (by omega), if_neg (by omega),
      if_neg (by omega)]
  · rw [List.length_take]
    omega
  · rw [List.length_drop]

set_option maxRecDepth 8000 in
/-- Witness for C3: the 204-byte ClientHello payload with body length 200
split at first = 3 yields fragments of payload lengths 3 and 201. -/
theorem splitClientHello_two_fragments_witness :
    (chRec.ContentType = 0x16 ∧ 4 ≤ chRec.Payload.length ∧
      chRec.Payload.getD 0 0 = 0x01 ∧
      bodyLengthOf chRec.Payload + 4 = chRec.Payload.length ∧
      (0 : Int) < 3 ∧ (3 : Int) < (chRec.Payload.length : Int)) ∧
    (chRec.SplitClientHello 3 =
      .ok [⟨chRec.ContentType, chRec.Version, chRec.Payload.take 3⟩,
           ⟨chRec.ContentType, chRec.Version, chRec.Payload.drop 3⟩] ∧
      chRec.Payload.take 3 ++ chRec.Payload.drop 3 = chRec.Payload ∧
      (chRec.Payload.take 3).length = 3 ∧
      (chRec.Payload.drop 3).length = chRec.Payload.length - 3) :=
  ⟨⟨by decide, by decide, by decide, by decide, by decide, by decide⟩,
   splitClientHello_two_fragments chRec 3 (by decide) (by decide) (by decide)
     (by decide) (by decide) (by decide)⟩

/-- C4: exact characterization of the SplitClientHello failures, in the
order the code applies the checks; a length mismatch is always a hard
failure (it yields an error, never a repaired result). -/
theorem splitClientHello_errors_exact (rec : Record) (first : Int) :
    (rec.SplitClientHello first = .error .notHandshake ↔ rec.ContentType ≠ 0x16) ∧
    (rec.SplitClientHello first = .error .handshakeTooShort ↔
      rec.ContentType = 0x16 ∧ rec.Payload.length < 4) ∧
    (rec.SplitClientHello first = .error .notClientHello ↔
      rec.ContentType = 0x16 ∧ 4 ≤ rec.Payload.length ∧ rec.Payload.getD 0 0 ≠ 0x01) ∧
    (rec.SplitClientHello first = .error .lengthMismatch ↔
      rec.ContentType = 0x16 ∧ 4 ≤ rec.Payload.length ∧ rec.Payload.getD 0 0 = 0x01 ∧
      bodyLengthOf rec.Payload + 4 ≠ rec.Payload.length) := by
  simp only [Record.SplitClientHello]
  refine ⟨?_, ?_, ?_, ?_⟩ <;> split_ifs <;> simp_all

/-- C6: on a record passing all validity checks, an out-of-range split point
(first <= 0 or first >= payload length) is a no-op: the result is exactly one
record whose content type, version and payload equal the input record
fields; in particular first = 0 round-trips. -/
theorem splitClientHello_noop (rec : Record) (first : Int)
    (hct : rec.ContentType = 0x16)
    (hlen : 4 ≤ rec.Payload.length)
    (hch : rec.Payload.getD 0 0 = 0x01)
    (hbody : bodyLengthOf rec.Payload + 4 = rec.Payload.length)
    (hout : first ≤ 0 ∨ (rec.Payload.length : Int) ≤ first) :
    rec.SplitClientHello first =
      .ok [⟨rec.ContentType, rec.Version, rec.Payload⟩] := by
  simp only [Record.SplitClientHello]
  rw [if_neg (by omega), if_neg (by omega), if_neg (by omega), if_neg (by omega),
    if_pos hout]

set_option maxRecDepth 8000 in
/-- Witness for C6: first = 0 on the concrete ClientHello record yields the
single identical record. -/
theorem splitClientHello_noop_witness :
    (chRec.ContentType = 0x16 ∧ 4 ≤ chRec.Payload.length ∧
      chRec.Payload.getD 0 0 = 0x01 ∧
      bodyLengthOf chRec.Payload + 4 = chRec.Payload.length ∧
      ((0 : Int) ≤ 0 ∨ (chRec.Payload.length : Int) ≤ 0)) ∧
    chRec.SplitClientHello 0 =
      .ok [⟨chRec.ContentType, chRec.Version, chRec.Payload⟩] :=
  ⟨⟨by decide, by decide, by decide, by decide, Or.inl (by decide)⟩,
   splitClientHello_noop chRec 0 (by decide) (by decide) (by decide) (by decide)
     (Or.inl (by decide))⟩

/-- C9: Record.Write rejects every record whose payload exceeds 65535 bytes
with an error and emits nothing, and for every payload within the limit the
size-error branch is unreachable and the emitted bytes are exactly the
5-byte big-endian header followed by the payload. -/
theorem record_write_size_guard (rec : Record) :
    (65535 < rec.Payload.length → rec.write = .error "record payload too large") ∧
    (rec.Payload.length ≤ 65535 →
      rec.write = .ok ([rec.ContentType, rec.Version / 256 % 256, rec.Version % 256,
        rec.Payload.length / 256, rec.Payload.length % 256] ++ rec.Payload)) := by
  constructor
  · intro h
    simp only [Record.write]
    rw [if_pos (by omega)]
  · intro h
    simp only [Record.write, recordHeader]
    rw [if_neg (by omega)]
    have hq : rec.Payload.length / 256 % 256 = rec.Payload.length / 256 :=
      Nat.mod_eq_of_lt (by omega)
    rw [hq]

/-- Witness for C9 at a concrete small record. -/
theorem record_write_size_guard_witness :
    (Record.mk 0x16 0x0301 [7, 8]).Payload.length ≤ 65535 ∧
    (Record.mk 0x16 0x0301 [7, 8]).write =
      .ok ([0x16, 0x03, 0x01, 0, 2] ++ [7, 8]) :=
  ⟨by decide, (record_write_size_guard (Record.mk 0x16 0x0301 [7, 8])).2 (by decide)⟩


theorem getD_take_of_lt (l : List Nat) (n i : Nat) (h : i < n) :
    (l.take n).getD i 0 = l.getD i 0 := by
  simp [List.getD, List.getElem?_take, h]

theorem wireLength_take (stream : List Nat) : wireLength (stream.take 5) = wireLength stream := by
  simp only [wireLength, getD_take_of_lt stream 5 3 (by omega),
    getD_take_of_lt stream 5 4 (by omega)]

/-- C5: full characterization of ReadInitialRecord. A stream shorter than the
5-byte header fails carrying exactly the bytes available (possibly zero); a
header length field above the cap fails carrying exactly the 5 header bytes;
a stream that ends inside the payload fails carrying header plus partial
payload (here the whole stream); and a complete record parses into a Record
whose fields match the wire bytes, together with exactly the header + payload
bytes consumed. -/
theorem readInitialRecord_behaviour (stream : List Nat) (maxSize : Nat) :
    (stream.length < 5 →
      ReadInitialRecord stream maxSize = .fail stream .readFail []) ∧
    (5 ≤ stream.length → maxSize < wireLength stream →
      ReadInitialRecord stream maxSize = .fail (stream.take 5) .tooLarge (stream.drop 5)) ∧
    (5 ≤ stream.length → wireLength stream ≤ maxSize →
      stream.length < 5 + wireLength stream →
      ReadInitialRecord stream maxSize = .fail stream .readFail []) ∧
    (5 ≤ stream.length → wireLength stream ≤ maxSize →
      5 + wireLength stream ≤ stream.length →
      ReadInitialRecord stream maxSize =
        .ok ⟨stream.getD 0 0, stream.getD 1 0 * 256 + stream.getD 2 0,
              (stream.drop 5).take (wireLength stream)⟩
          (stream.take (5 + wireLength stream))
          (stream.drop (5 + wireLength stream))) := by
  refine ⟨?_, ?_, ?_, ?_⟩
  · intro h5
    simp only [ReadInitialRecord, if_pos h5]
    rw [List.take_of_length_le (by omega), List.drop_eq_nil_of_le (by omega)]
  · intro h5 hcap
    simp only [ReadInitialRecord]
    rw [if_neg (by omega), wireLength_take, if_pos hcap]
  · intro h5 hcap hshort
    simp only [ReadInitialRecord]
    rw [if_neg (by omega), wireLength_take, if_neg (by omega)]
    have hlenrest : (stream.drop 5).length = stream.length - 5 := List.length_drop 5 stream
    rw [if_pos (by omega)]
    rw [List.take_of_length_le (show (stream.drop 5).length ≤ wireLength stream by omega),
      List.take_append_drop,
      List.drop_eq_nil_of_le (show (stream.drop 5).length ≤ wireLength stream by omega)]
  · intro h5 hcap hfull
    simp only [ReadInitialRecord]
    rw [if_neg (by omega), wireLength_take, if_neg (by omega)]
    have hlenrest : (stream.drop 5).length = stream.length - 5 := List.length_drop 5 stream
    rw [if_neg (by omega)]
    rw [getD_take_of_lt stream 5 0 (by omega), getD_take_of_lt stream 5 1 (by omega),
      getD_take_of_lt stream 5 2 (by omega), List.drop_drop, List.take_add]

/-- Witness for C5 at a complete 7-byte stream holding a 2-byte payload. -/
theorem readInitialRecord_behaviour_witness :
    (5 ≤ ([0x16, 3, 1, 0, 2, 9, 9] : List Nat).length ∧
      wireLength [0x16, 3, 1, 0, 2, 9, 9] ≤ 100 ∧
      5 + wireLength [0x16, 3, 1, 0, 2, 9, 9] ≤ ([0x16, 3, 1, 0, 2, 9, 9] : List Nat).length) ∧
    ReadInitialRecord [0x16, 3, 1, 0, 2, 9, 9] 100 =
      .ok ⟨0x16, 3 * 256 + 1, [9, 9]⟩ [0x16, 3, 1, 0, 2, 9, 9] [] := by
  refine ⟨⟨by decide, by decide, by decide⟩, ?_⟩
  have h := (readInitialRecord_behaviour [0x16, 3, 1, 0, 2, 9, 9] 100).2.2.2
    (by decide) (by decide) (by decide)
  simpa using h


/-- The exact bytes Record.Write emits for an in-range payload. -/
def recordBytes (rec : Record) : List Nat :=
  recordHeader rec.ContentType rec.Version rec.Payload.length ++ rec.Payload

theorem record_write_ok (rec : Record) (h : rec.Payload.length ≤ 65535) :
    rec.write = .ok (recordBytes rec) := by
  simp only [Record.write, recordBytes]
  rw [if_neg (by omega)]

theorem writeRecords_one (a : Record) (g1 g2 : Int) (r : Nat)
    (h : a.Payload.length ≤ 65535) :
    WriteRecords [a] g1 g2 r = ([WriteEvent.wrote (recordBytes a)], true) := by
  rw [WriteRecords, writeRecordsAux_cons_ok _ g1 g2 r a [] 0 _ (record_write_ok a h)]
  rw [if_neg (by simp)]
  simp [writeRecordsAux]

theorem writeRecords_pair (a b : Record) (g1 g2 : Int) (r : Nat)
    (h1 : a.Payload.length ≤ 65535) (h2 : b.Payload.length ≤ 65535) :
    (WriteRecords [a, b] g1 g2 r).2 = true ∧
    writtenBytes (WriteRecords [a, b] g1 g2 r).1 = recordBytes a ++ recordBytes b := by
  rw [WriteRecords, writeRecordsAux_cons_ok _ g1 g2 r a [b] 0 _ (record_write_ok a h1)]
  rw [writeRecordsAux_cons_ok _ g1 g2 r b [] 1 _ (record_write_ok b h2)]
  constructor
  · simp [writeRecordsAux]
  · split_ifs <;> simp [writeRecordsAux, writtenBytes]

theorem readInitialRecord_ok_inv (stream : List Nat) (mx : Nat)
    (rec : Record) (raw rest : List Nat)
    (h : ReadInitialRecord stream mx = .ok rec raw rest) :
    5 ≤ stream.length ∧
    rec.ContentType = stream.getD 0 0 ∧
    rec.Version = stream.getD 1 0 * 256 + stream.getD 2 0 ∧
    rec.Payload = (stream.drop 5).take (wireLength stream) ∧
    rec.Payload.length = wireLength stream ∧
    raw = stream.take 5 ++ rec.Payload := by
  simp only [ReadInitialRecord] at h
  split_ifs at h with h1 h2 h3
  have hrec := (ReadResult.ok.inj h).1
  have hraw := (ReadResult.ok.inj h).2.1
  rw [wireLength_take] at h3 hrec hraw
  have hlen5 : ¬ stream.length < 5 := h1
  have hdrop : (stream.drop 5).length = stream.length - 5 := List.length_drop 5 stream
  refine ⟨by omega, ?_, ?_, ?_, ?_, ?_⟩
  · rw [← hrec, getD_take_of_lt stream 5 0 (by omega)]
  · rw [← hrec, getD_take_of_lt stream 5 1 (by omega),
      getD_take_of_lt stream 5 2 (by omega)]
  · rw [← hrec]
  · rw [← hrec]
    simp only [List.length_take]
    omega
  · rw [← hraw, ← hrec]

theorem splitClientHello_ok_inv (rec : Record) (first : Int) (recs : List Record)
    (h : rec.SplitClientHello first = .ok recs) :
    recs = [⟨rec.ContentType, rec.Version, rec.Payload⟩] ∨
    ∃ k, 0 < k ∧ k < rec.Payload.length ∧
      recs = [⟨rec.ContentType, rec.Version, rec.Payload.take k⟩,
              ⟨rec.ContentType, rec.Version, rec.Payload.drop k⟩] := by
  simp only [Record.SplitClientHello] at h
  split_ifs at h with h1 h2 h3 h4 h5
  · exact Or.inl (Except.ok.inj h).symm
  · right
    refine ⟨first.toNat, by omega, by omega, (Except.ok.inj h).symm⟩

theorem getD_lt_of_all_lt (l : List Nat) (i : Nat) (h : ∀ b ∈ l, b < 256) :
    l.getD i 0 < 256 := by
  rcases hx : l[i]? with _ | x
  · simp [List.getD_eq_getElem?_getD, hx]
  · rw [List.getD_eq_getElem?_getD, hx]
    exact h x (List.getElem?_mem hx)

theorem recordHeader_eq_take (stream : List Nat) (h5 : 5 ≤ stream.length)
    (hbytes : ∀ b ∈ stream, b < 256) :
    recordHeader (stream.getD 0 0) (stream.getD 1 0 * 256 + stream.getD 2 0)
      (wireLength stream) = stream.take 5 := by
  match stream, h5 with
  | b0 :: b1 :: b2 :: b3 :: b4 :: rest, _ =>
    have hb1 : b1 < 256 := hbytes b1 (by simp)
    have hb2 : b2 < 256 := hbytes b2 (by simp)
    have hb3 : b3 < 256 := hbytes b3 (by simp)
    have hb4 : b4 < 256 := hbytes b4 (by simp)
    simp only [recordHeader, wireLength, List.getD_cons_zero, List.getD_cons_succ,
      List.take_succ_cons, List.take_zero, List.cons.injEq, and_true, true_and]
    refine ⟨?_, ?_, ?_, ?_⟩ <;> omega


/-- C1: no bytes read from the client are dropped before the relay. For every
initial client byte sequence, the bytes the orchestrator consumed are either
forwarded verbatim upstream (read failure, split failure, or a single
unsplit record, whose re-serialization is byte-identical), or re-emitted as
exactly two split records whose headers keep the original content type and
version and whose payloads partition the original payload in order. -/
theorem handleConn_no_byte_loss (client : List Nat) (maxSize : Nat)
    (firstFragment gapMin gapMax : Int) (r : Nat)
    (hbytes : ∀ b ∈ client, b < 256) :
    writtenBytes (handleConn client maxSize firstFragment gapMin gapMax r).pre =
      (handleConn client maxSize firstFragment gapMin gapMax r).consumed ∨
    ∃ ct v payload k,
      (handleConn client maxSize firstFragment gapMin gapMax r).consumed =
        recordHeader ct v payload.length ++ payload ∧
      0 < k ∧ k < payload.length ∧
      writtenBytes (handleConn client maxSize firstFragment gapMin gapMax r).pre =
        recordHeader ct v k ++ payload.take k ++
          (recordHeader ct v (payload.length - k) ++ payload.drop k) := by
  cases hread : ReadInitialRecord client maxSize with
  | fail raw e rest =>
    left
    simp only [handleConn, hread]
    by_cases hraw : 0 < raw.length
    · rw [if_pos hraw]
      simp [writtenBytes]
    · rw [if_neg hraw]
      have hnil : raw = [] := List.length_eq_zero.mp (by omega)
      simp [writtenBytes, hnil]
  | ok rec raw aRest =>
    obtain ⟨h5, hct, hv, hpay, hplen, hraw⟩ :=
      readInitialRecord_ok_inv client maxSize rec raw aRest hread
    have hple : rec.Payload.length ≤ 65535 := by
      have h3 := getD_lt_of_all_lt client 3 hbytes
      have h4 := getD_lt_of_all_lt client 4 hbytes
      rw [hplen]
      simp only [wireLength]
      omega
    have hhdr : recordHeader rec.ContentType rec.Version rec.Payload.length =
        client.take 5 := by
      rw [hct, hv, hplen]
      exact recordHeader_eq_take client h5 hbytes
    have hrawlen : 0 < raw.length := by
      rw [hraw]
      simp only [List.length_append, List.length_take]
      omega
    cases hsplit : rec.SplitClientHello firstFragment with
    | error e =>
      left
      simp only [handleConn, hread, hsplit, if_pos hrawlen]
      simp [writtenBytes]
    | ok recs =>
      rcases splitClientHello_ok_inv rec firstFragment recs hsplit with hone | ⟨k, hk0, hklen, htwo⟩
      · left
        subst hone
        have hw := writeRecords_one ⟨rec.ContentType, rec.Version, rec.Payload⟩
          gapMin gapMax r hple
        simp only [handleConn, hread, hsplit, hw]
        simp only [if_true]
        simp only [writtenBytes, recordBytes, List.append_nil]
        rw [hhdr, hraw]
      · right
        subst htwo
        have hlt : (rec.Payload.take k).length ≤ 65535 := by
          simp only [List.length_take]
          omega
        have hld : (rec.Payload.drop k).length ≤ 65535 := by
          simp only [List.length_drop]
          omega
        have hp := writeRecords_pair ⟨rec.ContentType, rec.Version, rec.Payload.take k⟩
          ⟨rec.ContentType, rec.Version, rec.Payload.drop k⟩ gapMin gapMax r hlt hld
        refine ⟨rec.ContentType, rec.Version, rec.Payload, k, ?_, hk0, hklen, ?_⟩
        · simp only [handleConn, hread, hsplit, hp.1, if_true]
          rw [hraw, hhdr]
        · simp only [handleConn, hread, hsplit, hp.1, if_true]
          rw [hp.2]
          simp only [recordBytes, List.length_take, List.length_drop]
          rw [Nat.min_eq_left (Nat.le_of_lt hklen)]

/-- Witness for C1 at a concrete valid ClientHello stream split at byte 2. -/
theorem handleConn_no_byte_loss_witness :
    (∀ b ∈ ([0x16, 3, 1, 0, 5, 1, 0, 0, 1, 0xAB] : List Nat), b < 256) ∧
    (writtenBytes
        (handleConn [0x16, 3, 1, 0, 5, 1, 0, 0, 1, 0xAB] 100 2 0 0 0).pre =
      (handleConn [0x16, 3, 1, 0, 5, 1, 0, 0, 1, 0xAB] 100 2 0 0 0).consumed ∨
    ∃ ct v payload k,
      (handleConn [0x16, 3, 1, 0, 5, 1, 0, 0, 1, 0xAB] 100 2 0 0 0).consumed =
        recordHeader ct v payload.length ++ payload ∧
      0 < k ∧ k < payload.length ∧
      writtenBytes
          (handleConn [0x16, 3, 1, 0, 5, 1, 0, 0, 1, 0xAB] 100 2 0 0 0).pre =
        recordHeader ct v k ++ payload.take k ++
          (recordHeader ct v (payload.length - k) ++ payload.drop k)) :=
  ⟨by decide,
   handleConn_no_byte_loss [0x16, 3, 1, 0, 5, 1, 0, 0, 1, 0xAB] 100 2 0 0 0 (by decide)⟩

/-- Counterexample to C2 as stated: on an empty client stream the initial
read fails with zero captured bytes, yet the session is not abandoned — the
orchestrator still enters the relay (transparent piping), forwarding nothing. -/
theorem handleConn_zero_capture_still_relays :
    ReadInitialRecord ([] : List Nat) 16384 = .fail [] ReadErr.readFail [] ∧
    (handleConn [] 16384 3 0 0 0).pre = [] ∧
    (handleConn [] 16384 3 0 0 0).relayStarted = true := by
  refine ⟨by decide, by decide, by decide⟩

/-- C2 amended: on a read failure with zero captured bytes nothing is
forwarded upstream and the connection still proceeds to the relay; with one
or more captured bytes exactly those bytes are forwarded verbatim and the
connection proceeds to the relay, with no parsing or splitting attempted. -/
theorem handleConn_read_failure_fallback (client : List Nat) (maxSize : Nat)
    (firstFragment gapMin gapMax : Int) (r : Nat)
    (raw rest : List Nat) (e : ReadErr)
    (hread : ReadInitialRecord client maxSize = .fail raw e rest) :
    (raw = [] →
      handleConn client maxSize firstFragment gapMin gapMax r =
        { consumed := [], pre := [], splitWarned := false,
          relayStarted := true, relayed := rest }) ∧
    (raw ≠ [] →
      handleConn client maxSize firstFragment gapMin gapMax r =
        { consumed := raw, pre := [WriteEvent.wrote raw], splitWarned := false,
          relayStarted := true, relayed := rest }) := by
  constructor <;> intro hcase <;> simp only [handleConn, hread]
  · subst hcase
    simp
  · rw [if_pos (List.length_pos.mpr hcase)]

/-- Witness for C2 (amended) at a 2-byte stream that ends inside the header. -/
theorem handleConn_read_failure_fallback_witness :
    ReadInitialRecord [1, 2] 9 = .fail [1, 2] ReadErr.readFail [] ∧
    ([1, 2] : List Nat) ≠ [] ∧
    handleConn [1, 2] 9 3 0 0 0 =
      { consumed := [1, 2], pre := [WriteEvent.wrote [1, 2]], splitWarned := false,
        relayStarted := true, relayed := [] } :=
  ⟨by decide, by decide,
   (handleConn_read_failure_fallback [1, 2] 9 3 0 0 0 [1, 2] [] ReadErr.readFail
      (by decide)).2 (by decide)⟩

/-- C8: every SplitClientHello failure in the orchestrator, of any kind,
triggers the same recovery: the raw bytes read are forwarded verbatim
upstream and the relay is entered; the error kind influences only the log
severity field, never the forwarding behaviour. -/
theorem handleConn_split_error_uniform (client : List Nat) (maxSize : Nat)
    (firstFragment gapMin gapMax : Int) (r : Nat)
    (rec : Record) (raw rest : List Nat) (e : SplitErr)
    (hread : ReadInitialRecord client maxSize = .ok rec raw rest)
    (hsplit : rec.SplitClientHello firstFragment = .error e) :
    (handleConn client maxSize firstFragment gapMin gapMax r).pre =
      [WriteEvent.wrote raw] ∧
    (handleConn client maxSize firstFragment gapMin gapMax r).relayStarted = true ∧
    (handleConn client maxSize firstFragment gapMin gapMax r).relayed = rest ∧
    (handleConn client maxSize firstFragment gapMin gapMax r).consumed = raw ∧
    (handleConn client maxSize firstFragment gapMin gapMax r).splitWarned =
      splitErrWarns e := by
  have hrawlen : 0 < raw.length := by
    obtain ⟨h5, _, _, _, _, hraw⟩ :=
      readInitialRecord_ok_inv client maxSize rec raw rest hread
    rw [hraw]
    simp only [List.length_append, List.length_take]
    omega
  simp only [handleConn, hread, hsplit, if_pos hrawlen]
  exact ⟨trivial, trivial, trivial, trivial, trivial⟩

/-- Witness for C8 at a non-handshake first record. -/
theorem handleConn_split_error_uniform_witness :
    ReadInitialRecord [0x17, 0, 0, 0, 0] 100 =
      .ok ⟨0x17, 0, []⟩ [0x17, 0, 0, 0, 0] [] ∧
    (Record.mk 0x17 0 []).SplitClientHello 3 = .error SplitErr.notHandshake ∧
    (handleConn [0x17, 0, 0, 0, 0] 100 3 0 0 0).pre =
      [WriteEvent.wrote [0x17, 0, 0, 0, 0]] ∧
    (handleConn [0x17, 0, 0, 0, 0] 100 3 0 0 0).relayStarted = true :=
  ⟨by decide, by rfl,
   (handleConn_split_error_uniform [0x17, 0, 0, 0, 0] 100 3 0 0 0
      ⟨0x17, 0, []⟩ [0x17, 0, 0, 0, 0] [] SplitErr.notHandshake
      (by decide) (by rfl)).1,
   (handleConn_split_error_uniform [0x17, 0, 0, 0, 0] 100 3 0 0 0
      ⟨0x17, 0, []⟩ [0x17, 0, 0, 0, 0] [] SplitErr.notHandshake
      (by decide) (by rfl)).2.1⟩

end Terasu
